import Mathlib

/-!
Verification development for the team-creation wizard (create_team.py) and
its sibling commands (archive_team.py).  The Python source is shallowly
embedded: conversational waits become a script of events, database calls
become pure state passing over an explicit store, and the asyncio race in
the semester prompt becomes an explicit race-outcome event.
-/

namespace TeamBot

/-- Decidable equality of Except values, for evaluating concrete runs. -/
instance {ε α : Type} [DecidableEq ε] [DecidableEq α] : DecidableEq (Except ε α) := fun x y =>
  match x, y with
  | .error a, .error b =>
    if h : a = b then .isTrue (by rw [h]) else .isFalse (fun hc => by cases hc; exact h rfl)
  | .error _, .ok _ => .isFalse (fun hc => by cases hc)
  | .ok _, .error _ => .isFalse (fun hc => by cases hc)
  | .ok a, .ok b =>
    if h : a = b then .isTrue (by rw [h]) else .isFalse (fun hc => by cases hc; exact h rfl)

/-- Python str.strip on a list of characters: drop whitespace from both ends. -/
def pyStripL (l : List Char) : List Char :=
  ((l.dropWhile Char.isWhitespace).reverse.dropWhile Char.isWhitespace).reverse

/-- Python str.strip. -/
def pyStrip (s : String) : String := String.mk (pyStripL s.data)

/-- Python str.lower (ASCII model). -/
def pyLower (s : String) : String := String.mk (s.data.map Char.toLower)

/-- Python str.isdigit (ASCII model): nonempty and all decimal digits. -/
def pyIsDigit (s : String) : Bool := !s.data.isEmpty && s.data.all Char.isDigit

/-- Python int() on a digits-only string. -/
def pyToNat (s : String) : Nat := s.data.foldl (fun n c => n * 10 + (c.toNat - 48)) 0

/-- EXIT_KEYWORDS membership test, mirroring create_team._should_exit:
content.strip().lower() in the set of the two exit tokens. -/
def should_exit (content : String) : Bool :=
  pyLower (pyStrip content) == "exit" || pyLower (pyStrip content) == "(exit)"

/-- A guild member (discord.Member); equality and hashing in discord.py are by id. -/
structure Member where
  id : Nat
  displayName : String
deriving DecidableEq, Repr

/-- A guild role (discord.Role). -/
structure Role where
  id : Nat
  name : String
deriving DecidableEq, Repr

/-- A category channel (discord.CategoryChannel). -/
structure CategoryChannel where
  id : Nat
  name : String
deriving DecidableEq, Repr

/-- A text channel (discord.TextChannel); categoryId records its placement. -/
structure TextChannel where
  id : Nat
  name : String
  categoryId : Option Nat
deriving DecidableEq, Repr

/-- The guild environment the wizard resolves entities against.  members is
the local cache (guild.get_member), remoteMembers the remote directory
(guild.fetch_member), canManage whether entity creation is permitted
(discord.Forbidden raised otherwise), nextId a source of fresh entity ids. -/
structure Guild where
  roles : List Role
  categories : List CategoryChannel
  textChannels : List TextChannel
  members : List Member
  remoteMembers : List Member
  canManage : Bool
  nextId : Nat
deriving DecidableEq, Repr

/-- The mutable draft assembled by the wizard (dataclass TeamCreationData). -/
structure TeamCreationData where
  team_nick : Option String := none
  role : Option Role := none
  category : Option CategoryChannel := none
  channel : Option TextChannel := none
  captain : Option Member := none
  starters : List Member := []
  substitutes : List Member := []
  year : Option Nat := none
  semester : Option String := none
  seniority : Option Nat := none
deriving DecidableEq, Repr

/-- A committed row of the teams table. -/
structure TeamRow where
  teamId : Nat
  teamNick : Option String
  roleId : Nat
  channelId : Nat
  categoryId : Nat
  captainId : Nat
  year : Nat
  semester : String
  seniority : Nat
  archived : Bool
deriving DecidableEq, Repr

/-- A row of the team_members table. -/
structure MembershipRow where
  teamId : Nat
  playerId : Nat
  status : String
deriving DecidableEq, Repr

/-- The database: teams, players and team_members tables, plus the serial
counter supplying the next team id. -/
structure DB where
  teams : List TeamRow
  players : List Nat
  memberships : List MembershipRow
  nextTeamId : Nat
deriving DecidableEq, Repr

/-- Outcome of one member.add_roles call. -/
inductive GrantOutcome where
  | ok
  | forbidden
  | httpError (msg : String)
deriving DecidableEq, Repr

/-- Errors escaping _finalize_team: TeamCreationError with a message, or the
completeness assertion at its head failing. -/
inductive FinalizeError where
  | assertFailed
  | teamCreationError (msg : String)
deriving DecidableEq, Repr

/-- The conflict query of db_transaction: a teams row with the same
role_id, category_id and channel_id whose archived flag is not true. -/
def conflict_check (roleId categoryId channelId : Nat) (db : DB) : Bool :=
  db.teams.any (fun t =>
    t.roleId == roleId && t.categoryId == categoryId && t.channelId == channelId && !t.archived)

/-- INSERT INTO players ... ON CONFLICT DO NOTHING. -/
def upsert_player (db : DB) (discordId : Nat) : DB :=
  if db.players.contains discordId then db
  else { db with players := db.players ++ [discordId] }

/-- INSERT INTO team_members ... ON CONFLICT (team_id, player_discord_id)
DO UPDATE SET member_status: replace the conflicting row, else append. -/
def upsertRow (tid pid : Nat) (st : String) : List MembershipRow → List MembershipRow
  | [] => [⟨tid, pid, st⟩]
  | r :: rs =>
    if r.teamId == tid && r.playerId == pid then { r with status := st } :: rs
    else r :: upsertRow tid pid st rs

/-- The upsert_member statement applied to the whole memberships table. -/
def upsert_member (teamId : Nat) (status : String) (db : DB) (discordId : Nat) : DB :=
  { db with memberships := upsertRow teamId discordId status db.memberships }

/-- The conflict key of the team_members unique constraint. -/
def keyMatch (tid pid : Nat) (r : MembershipRow) : Bool :=
  r.teamId == tid && r.playerId == pid

/-- Whether some membership row carries the given key. -/
def hasKey (ms : List MembershipRow) (tid pid : Nat) : Bool := ms.any (keyMatch tid pid)

/-- How many membership rows carry the given key. -/
def countKey (ms : List MembershipRow) (tid pid : Nat) : Nat := ms.countP (keyMatch tid pid)

/-- The status stored on the first membership row with the given key. -/
def findStatus (ms : List MembershipRow) (tid pid : Nat) : Option String :=
  (ms.find? (keyMatch tid pid)).map (fun r => r.status)

/-- A whole group of members upserted in order with one status. -/
def apply_group (tid : Nat) (st : String) (members : List Member)
    (ms : List MembershipRow) : List MembershipRow :=
  members.foldl (fun acc mem => upsertRow tid mem.id st acc) ms

/-- _dedupe_members: keep the first occurrence of each member id. -/
def dedupe_members (l : List Member) : List Member :=
  l.foldl (fun acc mem => if acc.any (fun e => e.id == mem.id) then acc else acc ++ [mem]) []

/-- Message of the conflict TeamCreationError raised in db_transaction. -/
def conflictMsg : String :=
  "Another active team already uses this role, category, and channel. Archive it before creating a new one."

/-- The body of db_transaction in _finalize_team, on an already-destructured
complete draft: conflict check, team insert, player upserts (starters and
substitutes, then captain), then membership upserts (starters with status
starter, then substitutes with status sub). -/
def db_transaction (d : TeamCreationData) (role : Role) (cat : CategoryChannel)
    (chan : TextChannel) (capt : Member) (year : Nat) (semester : String)
    (seniority : Nat) (db : DB) : Except String DB :=
  if conflict_check role.id cat.id chan.id db then .error conflictMsg
  else
    let teamId := db.nextTeamId
    let db1 : DB := { db with
      teams := db.teams ++ [⟨teamId, d.team_nick, role.id, chan.id, cat.id, capt.id,
        year, semester, seniority, false⟩],
      nextTeamId := db.nextTeamId + 1 }
    let db2 := (d.starters ++ d.substitutes).foldl (fun acc m => upsert_player acc m.id) db1
    let db3 := upsert_player db2 capt.id
    let db4 := d.starters.foldl (fun acc m => upsert_member teamId "starter" acc m.id) db3
    let db5 := d.substitutes.foldl (fun acc m => upsert_member teamId "sub" acc m.id) db4
    .ok db5

/-- db.run_in_transaction: on an error the whole transaction is rolled back,
so the store is left exactly as it was. -/
def run_in_transaction (body : DB → Except String DB) (db : DB) : Except String DB × DB :=
  match body db with
  | .ok db1 => (.ok db1, db1)
  | .error e => (.error e, db)

/-- The set of involved members built after commit: the Python set literal
of captain, starters and substitutes, which deduplicates by member id.
Insertion order stands in for the arbitrary set iteration order. -/
def involved_members (d : TeamCreationData) : List Member :=
  dedupe_members ((match d.captain with | some c => [c] | none => []) ++ d.starters ++ d.substitutes)

/-- The warning (if any) recorded for one add_roles call. -/
def grant_warning (grant : Member → GrantOutcome) (m : Member) : Option String :=
  match grant m with
  | .ok => none
  | .forbidden => some ("Missing permission to assign role to " ++ m.displayName ++ ".")
  | .httpError e => some ("Failed to assign role to " ++ m.displayName ++ ": " ++ e)

/-- _finalize_team: assert completeness (Python truthiness: the year and the
semester must also be non-falsy, seniority only non-None), run the
transaction, then attempt the role grant for every distinct involved member,
collecting failures as warnings.  Returns the warnings and the store. -/
def finalize_team (d : TeamCreationData) (grant : Member → GrantOutcome) (db : DB) :
    Except FinalizeError (List String) × DB :=
  match d.role, d.category, d.channel, d.captain, d.year, d.semester, d.seniority with
  | some role, some cat, some chan, some capt, some year, some semester, some seniority =>
    if year == 0 || semester == "" then (.error .assertFailed, db)
    else
      match run_in_transaction (db_transaction d role cat chan capt year semester seniority) db with
      | (.error e, db1) => (.error (.teamCreationError e), db1)
      | (.ok _, db1) =>
        let warnings := (involved_members d).filterMap (grant_warning grant)
        (.ok warnings, db1)
  | _, _, _, _, _, _, _ => (.error .assertFailed, db)

/-- A message from the operator: its text plus the structural mention lists
discord attaches to it. -/
structure Msg where
  content : String
  mentions : List Member := []
  roleMentions : List Role := []
  channelMentions : List TextChannel := []
deriving DecidableEq, Repr

/-- The semester options of the SemesterSelect view. -/
inductive Semester where
  | fall
  | summer
  | spring
deriving DecidableEq, Repr

/-- Rendering of a Semester option label. -/
def semStr : Semester → String
  | .fall => "Fall"
  | .summer => "Summer"
  | .spring => "Spring"

/-- Outcome of the asyncio race in _prompt_semester between the
exit-signal wait and the selection view: the exit wait finishing first
with an exit message, the selection finishing first with a chosen value,
or the view timing out with no selection. -/
inductive RaceResult where
  | exitFirst
  | selected (s : Semester)
  | timedOut
deriving DecidableEq, Repr

/-- One external signal consumed by the wizard: a reply message arriving,
the reply wait timing out, or the semester race resolving. -/
inductive Event where
  | reply (m : Msg)
  | timeout
  | semesterEvent (r : RaceResult)
deriving DecidableEq, Repr

/-- The scripted sequence of external signals for one wizard run. -/
abbrev Script := List Event

/-- Run-ending conditions: ConversationCancelled with its message, or the
finite script running out (a modelling artifact standing for a run that
keeps waiting). -/
inductive Abort where
  | cancelled (msg : String)
  | outOfScript
deriving DecidableEq, Repr

/-- Result of one per-field parsing closure inside _ask_question:
success, a ValidationError caught by the ask loop, or an exception
(cancellation) unwinding the run.  Script and guild are threaded. -/
inductive PResult (α : Type) where
  | ok (a : α) (s : Script) (g : Guild)
  | invalid (msg : String) (s : Script) (g : Guild)
  | abort (e : Abort)
deriving DecidableEq, Repr

/-- A per-field parsing closure, as passed to _ask_question: it receives the
stripped content and the raw message, may consume further script events
(confirmation round-trips), and may create guild entities. -/
abbrev FieldParse (α : Type) := Nat → String → Msg → Script → Guild → PResult α

/-- _wait_for_reply: the next event must be a reply; a timeout raises
ConversationCancelled. -/
def wait_for_reply (s : Script) (g : Guild) : Except Abort (Msg × Script × Guild) :=
  match s with
  | .reply m :: rest => .ok (m, rest, g)
  | .timeout :: _ => .error (.cancelled "Timed out waiting for a response.")
  | _ => .error .outOfScript

/-- _confirm: loop reading replies; exit tokens cancel, yes and y accept,
no and n decline, anything else re-prompts. -/
def confirm : Nat → Script → Guild → Except Abort (Bool × Script × Guild)
  | 0, _, _ => .error .outOfScript
  | fuel + 1, s, g =>
    match wait_for_reply s g with
    | .error e => .error e
    | .ok (m, s1, g1) =>
      let content := pyLower (pyStrip m.content)
      if should_exit content then .error (.cancelled "Process cancelled by user.")
      else if content == "yes" || content == "y" then .ok (true, s1, g1)
      else if content == "no" || content == "n" then .ok (false, s1, g1)
      else confirm fuel s1 g1

/-- _ask_question with a parser: read a reply, strip it; exit tokens cancel,
the skip tokens return none when allowed, otherwise the parser runs and a
ValidationError re-asks the same question. -/
def ask_question {α : Type} : Nat → Bool → FieldParse α → Script → Guild →
    Except Abort (Option α × Script × Guild)
  | 0, _, _, _, _ => .error .outOfScript
  | fuel + 1, allowNa, p, s, g =>
    match wait_for_reply s g with
    | .error e => .error e
    | .ok (m, s1, g1) =>
      let content := pyStrip m.content
      if should_exit content then .error (.cancelled "Process cancelled by user.")
      else if allowNa && (pyLower content == "n/a" || pyLower content == "na") then
        .ok (none, s1, g1)
      else
        match p fuel content m s1 g1 with
        | .ok a s2 g2 => .ok (some a, s2, g2)
        | .invalid _ s2 g2 => ask_question fuel allowNa p s2 g2
        | .abort e => .error e

/-- _ask_question without a parser: identical except a nonempty stripped
reply is returned as-is and an empty one re-prompts. -/
def ask_question_free : Nat → Bool → Script → Guild →
    Except Abort (Option String × Script × Guild)
  | 0, _, _, _ => .error .outOfScript
  | fuel + 1, allowNa, s, g =>
    match wait_for_reply s g with
    | .error e => .error e
    | .ok (m, s1, g1) =>
      let content := pyStrip m.content
      if should_exit content then .error (.cancelled "Process cancelled by user.")
      else if allowNa && (pyLower content == "n/a" || pyLower content == "na") then
        .ok (none, s1, g1)
      else if content ≠ "" then .ok (some content, s1, g1)
      else ask_question_free fuel allowNa s1 g1

/-- The normalize closure of _prompt_team_nick. -/
def normalize (value : Option String) : Option String :=
  match value with
  | none => none
  | some v => if pyStrip v == "" then none else some (pyStrip v)

/-- _prompt_team_nick: free-text question allowing the skip tokens,
normalized afterwards. -/
def prompt_team_nick (fuel : Nat) (s : Script) (g : Guild) :
    Except Abort (Option String × Script × Guild) :=
  (ask_question_free fuel true s g).map (fun r => (normalize r.1, r.2.1, r.2.2))

/-- The parsing closure of _prompt_role: a role mention or a name lookup,
each confirmed; an unmatched name offers creation, which needs manage
permission. -/
def parse_role : FieldParse Role := fun fuel content m s g =>
  match m.roleMentions with
  | role :: _ =>
    match confirm fuel s g with
    | .error e => .abort e
    | .ok (true, s1, g1) => .ok role s1 g1
    | .ok (false, s1, g1) => .invalid "Role selection cancelled. Provide another role." s1 g1
  | [] =>
    let roleName := pyStrip content
    if roleName == "" then .invalid "Please provide a role name or mention." s g
    else
      match g.roles.find? (fun r => pyLower r.name == pyLower roleName) with
      | some existing =>
        match confirm fuel s g with
        | .error e => .abort e
        | .ok (true, s1, g1) => .ok existing s1 g1
        | .ok (false, s1, g1) => .invalid "Role selection cancelled. Provide another role." s1 g1
      | none =>
        match confirm fuel s g with
        | .error e => .abort e
        | .ok (false, s1, g1) => .invalid "Role creation aborted. Provide another role." s1 g1
        | .ok (true, s1, g1) =>
          if g1.canManage then
            .ok ⟨g1.nextId, roleName⟩ s1
              { g1 with roles := g1.roles ++ [⟨g1.nextId, roleName⟩], nextId := g1.nextId + 1 }
          else .invalid ("Missing permissions to create the " ++ roleName ++ " role.") s1 g1

/-- _prompt_role as an ask_question loop. -/
def prompt_role (fuel : Nat) (s : Script) (g : Guild) :
    Except Abort (Option Role × Script × Guild) :=
  ask_question fuel false parse_role s g

/-- The parsing closure of _prompt_category: id lookup, then name lookup,
confirmation, else confirmed creation. -/
def parse_category : FieldParse CategoryChannel := fun fuel content m s g =>
  let _ := m
  let cleaned := pyStrip content
  let byId : Option CategoryChannel :=
    if pyIsDigit cleaned then g.categories.find? (fun c => c.id == pyToNat cleaned) else none
  let target : Option CategoryChannel :=
    match byId with
    | some c => some c
    | none => g.categories.find? (fun c => pyLower c.name == pyLower cleaned)
  match target with
  | some c =>
    match confirm fuel s g with
    | .error e => .abort e
    | .ok (true, s1, g1) => .ok c s1 g1
    | .ok (false, s1, g1) => .invalid "Category selection cancelled. Provide another category." s1 g1
  | none =>
    match confirm fuel s g with
    | .error e => .abort e
    | .ok (false, s1, g1) => .invalid "Category creation aborted. Provide another category." s1 g1
    | .ok (true, s1, g1) =>
      if g1.canManage then
        .ok ⟨g1.nextId, cleaned⟩ s1
          { g1 with categories := g1.categories ++ [⟨g1.nextId, cleaned⟩], nextId := g1.nextId + 1 }
      else .invalid ("Missing permissions to create category " ++ cleaned ++ ".") s1 g1

/-- _prompt_category as an ask_question loop. -/
def prompt_category (fuel : Nat) (s : Script) (g : Guild) :
    Except Abort (Option CategoryChannel × Script × Guild) :=
  ask_question fuel false parse_category s g

/-- The parsing closure of _prompt_channel: a channel mention, an id or name
lookup among text channels, confirmation, else confirmed creation under the
given category. -/
def parse_channel (category : Option CategoryChannel) : FieldParse TextChannel :=
  fun fuel content m s g =>
  match m.channelMentions with
  | chan :: _ =>
    match confirm fuel s g with
    | .error e => .abort e
    | .ok (true, s1, g1) => .ok chan s1 g1
    | .ok (false, s1, g1) => .invalid "Channel selection cancelled. Provide another channel." s1 g1
  | [] =>
    let cleaned := pyStrip content
    let byId : Option TextChannel :=
      if pyIsDigit cleaned then g.textChannels.find? (fun c => c.id == pyToNat cleaned) else none
    let target : Option TextChannel :=
      match byId with
      | some c => some c
      | none => g.textChannels.find? (fun c => pyLower c.name == pyLower cleaned)
    match target with
    | some c =>
      match confirm fuel s g with
      | .error e => .abort e
      | .ok (true, s1, g1) => .ok c s1 g1
      | .ok (false, s1, g1) => .invalid "Channel selection cancelled. Provide another channel." s1 g1
    | none =>
      match confirm fuel s g with
      | .error e => .abort e
      | .ok (false, s1, g1) => .invalid "Channel creation aborted. Provide another channel." s1 g1
      | .ok (true, s1, g1) =>
        if g1.canManage then
          .ok ⟨g1.nextId, cleaned, category.map (fun c => c.id)⟩ s1
            { g1 with
              textChannels := g1.textChannels ++ [⟨g1.nextId, cleaned, category.map (fun c => c.id)⟩],
              nextId := g1.nextId + 1 }
        else .invalid ("Missing permissions to create channel " ++ cleaned ++ ".") s1 g1

/-- _prompt_channel as an ask_question loop. -/
def prompt_channel (fuel : Nat) (category : Option CategoryChannel) (s : Script) (g : Guild) :
    Except Abort (Option TextChannel × Script × Guild) :=
  ask_question fuel false (parse_channel category) s g

/-- Member id resolution: the local cache first, then the remote directory. -/
def resolve_id (g : Guild) (n : Nat) : Option Member :=
  match g.members.find? (fun mem => mem.id == n) with
  | some mem => some mem
  | none => g.remoteMembers.find? (fun mem => mem.id == n)

/-- The parsing closure of _prompt_member: a mention or a numeric id, then
confirmation. -/
def parse_member : FieldParse Member := fun fuel content m s g =>
  let member? : Option Member :=
    match m.mentions with
    | mem :: _ => some mem
    | [] => if pyIsDigit (pyStrip content) then resolve_id g (pyToNat (pyStrip content)) else none
  match member? with
  | none => .invalid "Could not resolve that user. Mention them or provide their ID." s g
  | some mem =>
    match confirm fuel s g with
    | .error e => .abort e
    | .ok (true, s1, g1) => .ok mem s1 g1
    | .ok (false, s1, g1) => .invalid "Selection cancelled. Provide another user." s1 g1

/-- _prompt_member as an ask_question loop. -/
def prompt_member (fuel : Nat) (s : Script) (g : Guild) :
    Except Abort (Option Member × Script × Guild) :=
  ask_question fuel false parse_member s g

/-- The add_member helper of the group parser: append unless the id was
already seen. -/
def add_member (acc : List Member) (mem? : Option Member) : List Member :=
  match mem? with
  | none => acc
  | some mem => if acc.any (fun e => e.id == mem.id) then acc else acc ++ [mem]

/-- Whitespace and comma separated tokens of the stripped content. -/
def splitTokens (s : String) : List String :=
  (((pyStripL s.data).splitOnP (fun c => c.isWhitespace || c == ',')).map
    (fun l => String.mk l)).filter (fun t => t ≠ "")

/-- The parsing closure of _prompt_member_group: mentions first, then each
numeric token resolved, deduplicated by id; an empty result is a
ValidationError, a nonempty one needs one confirmation. -/
def parse_group : FieldParse (List Member) := fun fuel content m s g =>
  let fromMentions := m.mentions.foldl (fun acc mem => add_member acc (some mem)) []
  let entries := (splitTokens content).foldl
    (fun acc tok => if pyIsDigit tok then add_member acc (resolve_id g (pyToNat tok)) else acc)
    fromMentions
  if entries.isEmpty then .invalid "No valid members were provided." s g
  else
    match confirm fuel s g with
    | .error e => .abort e
    | .ok (true, s1, g1) => .ok entries s1 g1
    | .ok (false, s1, g1) => .invalid "Selection cancelled. Provide the list again." s1 g1

/-- _prompt_member_group: the skip tokens are allowed exactly when an entry
is not required, and a skipped group is the empty list. -/
def prompt_member_group (fuel : Nat) (requireEntry : Bool) (s : Script) (g : Guild) :
    Except Abort (List Member × Script × Guild) :=
  (ask_question fuel (!requireEntry) parse_group s g).map
    (fun r => (r.1.getD [], r.2.1, r.2.2))

/-- The parsing closure of _prompt_year: digits only, then the closed range
check from 2000 to 2100. -/
def parse_year : FieldParse Nat := fun _ content _ s g =>
  if !pyIsDigit content then .invalid "Please provide a numeric year (e.g., 2025)." s g
  else
    let year := pyToNat content
    if year < 2000 || 2100 < year then .invalid "Year must be between 2000 and 2100." s g
    else .ok year s g

/-- _prompt_year as an ask_question loop. -/
def prompt_year (fuel : Nat) (s : Script) (g : Guild) :
    Except Abort (Option Nat × Script × Guild) :=
  ask_question fuel false parse_year s g

/-- The parsing closure of _prompt_seniority: digits only, unconstrained. -/
def parse_seniority : FieldParse Nat := fun _ content _ s g =>
  if !pyIsDigit content then .invalid "Please provide a numeric seniority level (e.g., 1)." s g
  else .ok (pyToNat content) s g

/-- _prompt_seniority as an ask_question loop. -/
def prompt_seniority (fuel : Nat) (s : Script) (g : Guild) :
    Except Abort (Option Nat × Script × Guild) :=
  ask_question fuel false parse_seniority s g

/-- _prompt_semester: the race of the exit-signal wait against the selection
view, resolved by whichever finishes first; an exit win or a view timeout
raises ConversationCancelled, a selection win yields its label. -/
def prompt_semester (s : Script) (g : Guild) : Except Abort (String × Script × Guild) :=
  match s with
  | .semesterEvent r :: rest =>
    match r with
    | .exitFirst => .error (.cancelled "Process cancelled by user.")
    | .selected sem => .ok (semStr sem, rest, g)
    | .timedOut => .error (.cancelled "Semester selection timed out.")
  | _ => .error .outOfScript

/-- _ensure_captain_assignment: leave the draft alone when the captain is
already a substitute or a starter, otherwise append the captain to the
starters. -/
def ensure_captain_assignment (d : TeamCreationData) : TeamCreationData :=
  match d.captain with
  | none => d
  | some capt =>
    if d.substitutes.any (fun mem => mem.id == capt.id) then d
    else if d.starters.any (fun mem => mem.id == capt.id) then d
    else { d with starters := d.starters ++ [capt] }

/-- The editable field names offered by the review loop. -/
inductive Field where
  | team_nick
  | role
  | category
  | channel
  | captain
  | starters
  | substitutes
  | year
  | semester
  | seniority
deriving DecidableEq, Repr

/-- The canonical lowercase spelling of each field name. -/
def fieldName : Field → String
  | .team_nick => "team_nick"
  | .role => "role"
  | .category => "category"
  | .channel => "channel"
  | .captain => "captain"
  | .starters => "starters"
  | .substitutes => "substitutes"
  | .year => "year"
  | .semester => "semester"
  | .seniority => "seniority"

/-- The field_map lookup of _review_answers on the lowercased reply. -/
def parseField (s : String) : Option Field :=
  if s == "team_nick" then some .team_nick
  else if s == "role" then some .role
  else if s == "category" then some .category
  else if s == "channel" then some .channel
  else if s == "captain" then some .captain
  else if s == "starters" then some .starters
  else if s == "substitutes" then some .substitutes
  else if s == "year" then some .year
  else if s == "semester" then some .semester
  else if s == "seniority" then some .seniority
  else none

/-- The dynamically-typed result a review handler hands back. -/
inductive FieldValue where
  | nickV (v : Option String)
  | roleV (v : Option Role)
  | catV (v : Option CategoryChannel)
  | chanV (v : Option TextChannel)
  | captV (v : Option Member)
  | groupV (v : List Member)
  | natV (v : Option Nat)
  | semV (v : String)
deriving DecidableEq, Repr

/-- Dispatch of the field_map handlers: each field re-runs its own prompt;
the channel handler closes over the current category of the draft. -/
def runFieldPrompt (f : Field) (d : TeamCreationData) (fuel : Nat) (s : Script) (g : Guild) :
    Except Abort (FieldValue × Script × Guild) :=
  match f with
  | .team_nick => (prompt_team_nick fuel s g).map (fun r => (.nickV r.1, r.2.1, r.2.2))
  | .role => (prompt_role fuel s g).map (fun r => (.roleV r.1, r.2.1, r.2.2))
  | .category => (prompt_category fuel s g).map (fun r => (.catV r.1, r.2.1, r.2.2))
  | .channel => (prompt_channel fuel d.category s g).map (fun r => (.chanV r.1, r.2.1, r.2.2))
  | .captain => (prompt_member fuel s g).map (fun r => (.captV r.1, r.2.1, r.2.2))
  | .starters => (prompt_member_group fuel true s g).map (fun r => (.groupV r.1, r.2.1, r.2.2))
  | .substitutes => (prompt_member_group fuel false s g).map (fun r => (.groupV r.1, r.2.1, r.2.2))
  | .year => (prompt_year fuel s g).map (fun r => (.natV r.1, r.2.1, r.2.2))
  | .semester => (prompt_semester s g).map (fun r => (.semV r.1, r.2.1, r.2.2))
  | .seniority => (prompt_seniority fuel s g).map (fun r => (.natV r.1, r.2.1, r.2.2))

/-- The assignment chain of _review_answers: overwrite exactly the chosen
draft attribute with the handler result. -/
def setField (d : TeamCreationData) (f : Field) (v : FieldValue) : TeamCreationData :=
  match f, v with
  | .team_nick, .nickV x => { d with team_nick := x }
  | .role, .roleV x => { d with role := x }
  | .category, .catV x => { d with category := x }
  | .channel, .chanV x => { d with channel := x }
  | .captain, .captV x => { d with captain := x }
  | .starters, .groupV x => { d with starters := x }
  | .substitutes, .groupV x => { d with substitutes := x }
  | .year, .natV x => { d with year := x }
  | .semester, .semV x => { d with semester := some x }
  | .seniority, .natV x => { d with seniority := x }
  | _, _ => d

/-- Reset of one draft attribute to its default, used to state that an edit
leaves every other attribute unchanged. -/
def eraseField (f : Field) (d : TeamCreationData) : TeamCreationData :=
  match f with
  | .team_nick => { d with team_nick := none }
  | .role => { d with role := none }
  | .category => { d with category := none }
  | .channel => { d with channel := none }
  | .captain => { d with captain := none }
  | .starters => { d with starters := [] }
  | .substitutes => { d with substitutes := [] }
  | .year => { d with year := none }
  | .semester => { d with semester := none }
  | .seniority => { d with seniority := none }

/-- _review_answers: loop on replies; exit tokens cancel, the confirm token
returns the draft, a recognized field name re-runs its prompt and
overwrites that one attribute, anything else re-prompts. -/
def review_answers : Nat → TeamCreationData → Script → Guild →
    Except Abort (TeamCreationData × Script × Guild)
  | 0, _, _, _ => .error .outOfScript
  | fuel + 1, d, s, g =>
    match wait_for_reply s g with
    | .error e => .error e
    | .ok (m, s1, g1) =>
      let content := pyStrip m.content
      if should_exit content then .error (.cancelled "Process cancelled by user.")
      else if pyLower content == "confirm" then .ok (d, s1, g1)
      else
        match parseField (pyLower content) with
        | none => review_answers fuel d s1 g1
        | some f =>
          match runFieldPrompt f d fuel s1 g1 with
          | .error e => .error e
          | .ok (v, s2, g2) => review_answers fuel (setField d f v) s2 g2

/-- _collect_team_data: the fixed field order, the two deduplication passes,
the captain fixup, then the review loop; the drafted record is returned only
after the review loop exits through its confirm token. -/
def collect_team_data (fuel : Nat) (s : Script) (g : Guild) :
    Except Abort (TeamCreationData × Script × Guild) :=
  match prompt_team_nick fuel s g with
  | .error e => .error e
  | .ok (nick, s1, g1) =>
  match prompt_role fuel s1 g1 with
  | .error e => .error e
  | .ok (role, s2, g2) =>
  match prompt_category fuel s2 g2 with
  | .error e => .error e
  | .ok (cat, s3, g3) =>
  match prompt_channel fuel cat s3 g3 with
  | .error e => .error e
  | .ok (chan, s4, g4) =>
  match prompt_member fuel s4 g4 with
  | .error e => .error e
  | .ok (capt, s5, g5) =>
  match prompt_member_group fuel true s5 g5 with
  | .error e => .error e
  | .ok (starters, s6, g6) =>
  match prompt_member_group fuel false s6 g6 with
  | .error e => .error e
  | .ok (subs, s7, g7) =>
  let d0 : TeamCreationData :=
    { team_nick := nick, role := role, category := cat, channel := chan, captain := capt,
      starters := dedupe_members starters, substitutes := dedupe_members subs }
  let d1 := ensure_captain_assignment d0
  match prompt_year fuel s7 g7 with
  | .error e => .error e
  | .ok (year, s8, g8) =>
  match prompt_semester s8 g8 with
  | .error e => .error e
  | .ok (sem, s9, g9) =>
  match prompt_seniority fuel s9 g9 with
  | .error e => .error e
  | .ok (sen, s10, g10) =>
  review_answers fuel { d1 with year := year, semester := some sem, seniority := sen } s10 g10

/-- The user-visible outcome of one create_team invocation. -/
inductive RunOutcome where
  | cancelledMsg (msg : String)
  | collectFailed
  | blocked (msg : String)
  | failed
  | success (warnings : List String)
deriving DecidableEq, Repr

/-- The create_team command body: collect, then finalize; an abort during
collection ends the run before any database interaction, a
TeamCreationError is reported as blocked, any other finalize failure as a
generic failure, and success carries the warning list. -/
def create_team_run (fuel : Nat) (s : Script) (g : Guild)
    (grant : Member → GrantOutcome) (db : DB) : RunOutcome × DB :=
  match collect_team_data fuel s g with
  | .error (.cancelled msg) => (.cancelledMsg msg, db)
  | .error .outOfScript => (.collectFailed, db)
  | .ok (d, _, _) =>
    match finalize_team d grant db with
    | (.error (.teamCreationError msg), db1) => (.blocked msg, db1)
    | (.error .assertFailed, db1) => (.failed, db1)
    | (.ok warnings, db1) => (.success warnings, db1)

/-- SQL LIKE matching on character lists, case-insensitive (ILIKE), with an
explicit fuel so the definition is structurally recursive: the percent
wildcard matches any run, the underscore any one character. -/
def likeMatchF : Nat → List Char → List Char → Bool
  | 0, _, _ => false
  | _ + 1, [], [] => true
  | _ + 1, [], _ :: _ => false
  | fuel + 1, '%' :: ps, [] => likeMatchF fuel ps []
  | fuel + 1, '%' :: ps, c :: ss =>
    likeMatchF fuel ps (c :: ss) || likeMatchF fuel ('%' :: ps) ss
  | fuel + 1, '_' :: ps, _ :: ss => likeMatchF fuel ps ss
  | _ + 1, '_' :: _, [] => false
  | fuel + 1, p :: ps, c :: ss => p.toLower == c.toLower && likeMatchF fuel ps ss
  | _ + 1, _ :: _, [] => false

/-- SQL ILIKE matching with enough fuel for any match to be found. -/
def likeMatch (p s : List Char) : Bool := likeMatchF (2 * s.length + p.length + 1) p s

/-- The archive_team_autocomplete query: team_nick ILIKE the pattern built
by wrapping the typed text in percent wildcards, restricted to non-archived
teams, limited to 25 rows. -/
def suggest_labels (current : String) (db : DB) : List String :=
  (((db.teams.filter (fun t =>
      !t.archived &&
        (match t.teamNick with
         | some n => likeMatch ('%' :: current.data ++ ['%']) n.data
         | none => false))).map
    (fun t => t.teamNick.getD "")).take 25)

/-- Plain starts-with on strings, for stating the prefix reading of the
autocomplete contract. -/
def strStartsWith (s pre : String) : Bool := pre.data.isPrefixOf s.data

/-- A plain text message with no structural mentions. -/
def msg (c : String) : Msg := ⟨c, [], [], []⟩

/-- Concrete fixture member Alice. -/
def memA : Member := ⟨10, "Alice"⟩

/-- Concrete fixture member Bob. -/
def memB : Member := ⟨11, "Bob"⟩

/-- Concrete fixture member Charlie. -/
def memC : Member := ⟨12, "Charlie"⟩

/-- Concrete fixture role. -/
def role1 : Role := ⟨1, "TeamRole"⟩

/-- Concrete fixture category. -/
def cat2 : CategoryChannel := ⟨2, "Main"⟩

/-- Concrete fixture text channel. -/
def chan3 : TextChannel := ⟨3, "chat", some 2⟩

/-- Concrete fixture guild holding the fixture entities. -/
def g0 : Guild := ⟨[role1], [cat2], [chan3], [memA, memB, memC], [], true, 100⟩

/-- Concrete fixture store, empty. -/
def db0 : DB := ⟨[], [], [], 1⟩

/-- A run script that names Alice as captain and places her in both the
starters and the substitutes, then confirms the review summary. -/
def scriptBothGroups : Script := [
  .reply (msg "n/a"),
  .reply ⟨"@TeamRole", [], [role1], []⟩, .reply (msg "yes"),
  .reply (msg "Main"), .reply (msg "yes"),
  .reply ⟨"#chat", [], [], [chan3]⟩, .reply (msg "yes"),
  .reply ⟨"@Alice", [memA], [], []⟩, .reply (msg "y"),
  .reply ⟨"@Alice", [memA], [], []⟩, .reply (msg "yes"),
  .reply ⟨"@Alice", [memA], [], []⟩, .reply (msg "yes"),
  .reply (msg "2025"),
  .semesterEvent (.selected .fall),
  .reply (msg "1"),
  .reply (msg "confirm")]

/-- The draft that scriptBothGroups collects. -/
def draftBothGroups : TeamCreationData :=
  { team_nick := none, role := some role1, category := some cat2, channel := some chan3,
    captain := some memA, starters := [memA], substitutes := [memA],
    year := some 2025, semester := some "Fall", seniority := some 1 }

/-- A complete fixture draft with captain Alice, starters Alice and Bob,
substitute Charlie. -/
def draftABC : TeamCreationData :=
  { team_nick := some "Falcons", role := some role1, category := some cat2,
    channel := some chan3, captain := some memA, starters := [memA, memB],
    substitutes := [memC], year := some 2025, semester := some "Fall", seniority := some 3 }

/-- A grant oracle that fails with a permission error for Charlie only. -/
def grantFailC : Member → GrantOutcome := fun m => if m.id == memC.id then .forbidden else .ok

/-- Concrete fixture store holding one non-archived team labelled XFalcon. -/
def db9 : DB := ⟨[⟨1, some "XFalcon", 1, 2, 3, 10, 2025, "Fall", 1, false⟩], [], [], 2⟩

/-- A complete fixture draft whose captain Alice is in neither group. -/
def draftNoCapt : TeamCreationData :=
  { team_nick := none, role := some role1, category := some cat2, channel := some chan3,
    captain := some memA, starters := [memB], substitutes := [memC],
    year := some 2025, semester := some "Fall", seniority := some 2 }

lemma pyStripL_eq (l : List Char) :
    pyStripL l = List.rdropWhile Char.isWhitespace (l.dropWhile Char.isWhitespace) := rfl

lemma dropWhile_eq_self_of_front {p : Char → Bool} {r m : List Char}
    (hpre : r <+: m) (hm : m.dropWhile p = m) : r.dropWhile p = r := by
  cases r with
  | nil => rfl
  | cons a r' =>
    cases m with
    | nil => simp at hpre
    | cons b t =>
      rw [List.cons_prefix_cons] at hpre
      obtain ⟨hab, _⟩ := hpre
      subst hab
      rw [List.dropWhile_cons] at hm ⊢
      by_cases hp : p a
      · rw [if_pos hp] at hm
        have hlen := congrArg List.length hm
        have hle : (t.dropWhile p).length ≤ t.length := (List.dropWhile_suffix p).length_le
        simp only [List.length_cons] at hlen
        omega
      · rw [if_neg hp]

lemma pyStripL_idem (l : List Char) : pyStripL (pyStripL l) = pyStripL l := by
  rw [pyStripL_eq, pyStripL_eq]
  have hm : (l.dropWhile Char.isWhitespace).dropWhile Char.isWhitespace =
      l.dropWhile Char.isWhitespace := List.dropWhile_idempotent _ l
  have hpre := List.rdropWhile_prefix Char.isWhitespace (l.dropWhile Char.isWhitespace)
  rw [dropWhile_eq_self_of_front hpre hm]
  exact List.rdropWhile_idempotent _ _

lemma pyStrip_idem (s : String) : pyStrip (pyStrip s) = pyStrip s := by
  simp only [pyStrip]
  exact congrArg String.mk (pyStripL_idem s.data)

lemma should_exit_pyStrip (c : String) : should_exit (pyStrip c) = should_exit c := by
  simp only [should_exit, pyStrip_idem]

/-- C6: the semester prompt is the race of the exit wait against the
selection wait, settled by whichever resolves first: an exit win cancels
the run, a selection win yields one of the three semester labels, and a
timeout with no selection cancels the run with the timeout message rather
than any validation failure. -/
theorem C6_semester_race_behavior :
    (∀ s g, prompt_semester (Event.semesterEvent RaceResult.exitFirst :: s) g =
      .error (.cancelled "Process cancelled by user.")) ∧
    (∀ sem s g, prompt_semester (Event.semesterEvent (RaceResult.selected sem) :: s) g =
      .ok (semStr sem, s, g) ∧
      (semStr sem = "Fall" ∨ semStr sem = "Summer" ∨ semStr sem = "Spring")) ∧
    (∀ s g, prompt_semester (Event.semesterEvent RaceResult.timedOut :: s) g =
      .error (.cancelled "Semester selection timed out.")) := by
  refine ⟨fun s g => rfl, fun sem s g => ⟨rfl, ?_⟩, fun s g => rfl⟩
  cases sem <;> simp [semStr]

/-- C7: the year field accepts a reply exactly when its content is a
digits-only string whose value lies between 2000 and 2100 inclusive,
returning that value; any other reply is a validation failure carrying the
matching message, and a validation failure makes the ask loop re-ask the
same year question on the rest of the script. -/
theorem C7_year_accepts_iff_in_bounds :
    (∀ fuel content (m : Msg) s g, pyIsDigit content = true → 2000 ≤ pyToNat content →
      pyToNat content ≤ 2100 → parse_year fuel content m s g = .ok (pyToNat content) s g) ∧
    (∀ fuel content (m : Msg) s g, pyIsDigit content = false →
      parse_year fuel content m s g =
        .invalid "Please provide a numeric year (e.g., 2025)." s g) ∧
    (∀ fuel content (m : Msg) s g, pyIsDigit content = true →
      (pyToNat content < 2000 ∨ 2100 < pyToNat content) →
      parse_year fuel content m s g = .invalid "Year must be between 2000 and 2100." s g) ∧
    (∀ fuel content (m : Msg) s g y s2 g2, parse_year fuel content m s g = .ok y s2 g2 →
      pyIsDigit content = true ∧ 2000 ≤ y ∧ y ≤ 2100 ∧ y = pyToNat content ∧ s2 = s ∧ g2 = g) ∧
    (∀ fuel (m : Msg) s g w, should_exit m.content = false →
      parse_year fuel (pyStrip m.content) m s g = .invalid w s g →
      ask_question (fuel + 1) false parse_year (.reply m :: s) g =
        ask_question fuel false parse_year s g) := by
  refine ⟨?_, ?_, ?_, ?_, ?_⟩
  · intro fuel content m s g hd hlo hhi
    simp only [parse_year, hd, Bool.not_true, Bool.false_eq_true, if_false]
    have h1 : ¬(pyToNat content < 2000) := by omega
    have h2 : ¬(2100 < pyToNat content) := by omega
    simp [h1, h2]
  · intro fuel content m s g hd
    simp [parse_year, hd]
  · intro fuel content m s g hd hrange
    simp only [parse_year, hd, Bool.not_true, Bool.false_eq_true, if_false]
    rcases hrange with h | h
    · simp [h]
    · have : (pyToNat content < 2000 || 2100 < pyToNat content) = true := by
        simp [h]
      simp [this]
  · intro fuel content m s g y s2 g2 h
    simp only [parse_year] at h
    by_cases hd : pyIsDigit content = true
    · rw [hd] at h
      simp only [Bool.not_true, Bool.false_eq_true, if_false] at h
      by_cases hr : (decide (pyToNat content < 2000) || decide (2100 < pyToNat content)) = true
      · rw [if_pos hr] at h
        exact absurd h (by simp)
      · rw [if_neg hr] at h
        obtain ⟨hy, hs, hg⟩ : pyToNat content = y ∧ s = s2 ∧ g = g2 := by
          cases h
          exact ⟨rfl, rfl, rfl⟩
        simp only [Bool.or_eq_true, not_or, decide_eq_true_eq, Nat.not_lt] at hr
        exact ⟨hd, by omega, by omega, hy.symm, hs.symm, hg.symm⟩
    · simp [hd] at h
  · intro fuel m s g w hexit hinv
    simp only [ask_question, wait_for_reply]
    rw [should_exit_pyStrip, hexit]
    simp only [Bool.false_eq_true, if_false, Bool.false_and]
    rw [hinv]

/-- Witness for C7 at the concrete reply 2025. -/
theorem C7_year_accepts_iff_in_bounds_witness :
    parse_year 0 "2025" (msg "2025") [] g0 = .ok (pyToNat "2025") [] g0 :=
  C7_year_accepts_iff_in_bounds.1 0 "2025" (msg "2025") [] g0 (by decide) (by decide) (by decide)

/-- Counterexample for C9: with one non-archived team labelled XFalcon, the
suggestion query on the text Falcon returns XFalcon, which does not start
with Falcon, because the ILIKE pattern wraps the text in percent wildcards
and therefore matches anywhere in the label. -/
theorem C9_counterexample_not_a_prefix_query :
    suggest_labels "Falcon" db9 = ["XFalcon"] ∧ strStartsWith "XFalcon" "Falcon" = false := by
  constructor
  · decide
  · decide

/-- C9 amended: the suggestion query returns at most 25 labels, each the
label of a non-archived team, and each matching the case-insensitive SQL
pattern built by wrapping the typed text in percent wildcards (substring
match, not prefix match). -/
theorem C9_amended_suggest_labels :
    ∀ current db, (suggest_labels current db).length ≤ 25 ∧
      ∀ l ∈ suggest_labels current db, ∃ t ∈ db.teams, t.archived = false ∧
        t.teamNick = some l ∧ likeMatch ('%' :: current.data ++ ['%']) l.data = true := by
  intro current db
  constructor
  · simp only [suggest_labels, List.length_take]
    exact inf_le_left
  · intro l hl
    simp only [suggest_labels] at hl
    have hl2 := List.take_subset 25 _ hl
    rw [List.mem_map] at hl2
    obtain ⟨t, ht, hft⟩ := hl2
    rw [List.mem_filter] at ht
    obtain ⟨htm, hp⟩ := ht
    rcases hnick : t.teamNick with _ | n
    · rw [hnick] at hp
      simp at hp
    · rw [hnick] at hp hft
      simp only [Bool.and_eq_true, Bool.not_eq_true'] at hp
      simp only [Option.getD_some] at hft
      subst hft
      exact ⟨t, htm, hp.1, hnick, hp.2⟩

/-- Witness for the amended C9 at the concrete store and text of the
counterexample. -/
theorem C9_amended_suggest_labels_witness :
    ∃ t ∈ db9.teams, t.archived = false ∧ t.teamNick = some "XFalcon" ∧
      likeMatch ('%' :: "Falcon".data ++ ['%']) "XFalcon".data = true :=
  (C9_amended_suggest_labels "Falcon" db9).2 "XFalcon" (by decide)

/-- Counterexample for C8: a reply that is blank after trimming does not
yield not-a-value at the label prompt; the prompt re-asks and the next
reply becomes the label, so a run with a blank reply followed by Falcons
ends with the label Falcons instead of ending at the blank reply with the
label absent. -/
theorem C8_counterexample_blank_reprompted :
    prompt_team_nick 2 [.reply (msg "   "), .reply (msg "Falcons")] g0 =
      .ok (some "Falcons", [], g0) ∧
    prompt_team_nick 2 [.reply (msg "   "), .reply (msg "Falcons")] g0 ≠
      .ok (none, [.reply (msg "Falcons")], g0) := by
  exact ⟨by decide, by decide⟩

/-- C8 amended: at the label prompt a blank-after-trim reply re-asks the
question (it is not a skip); only the explicit skip tokens yield
not-a-value; and a non-blank, non-skip, non-exit reply yields its trimmed
text as the label. -/
theorem C8_amended_label_prompt :
    (∀ fuel (m : Msg) s g, pyStrip m.content = "" →
      ask_question_free (fuel + 1) true (.reply m :: s) g = ask_question_free fuel true s g) ∧
    (∀ fuel (m : Msg) s g,
      pyLower (pyStrip m.content) = "n/a" ∨ pyLower (pyStrip m.content) = "na" →
      prompt_team_nick (fuel + 1) (.reply m :: s) g = .ok (none, s, g)) ∧
    (∀ fuel (m : Msg) s g, should_exit m.content = false →
      pyLower (pyStrip m.content) ≠ "n/a" → pyLower (pyStrip m.content) ≠ "na" →
      pyStrip m.content ≠ "" →
      prompt_team_nick (fuel + 1) (.reply m :: s) g = .ok (some (pyStrip m.content), s, g)) := by
  refine ⟨?_, ?_, ?_⟩
  · intro fuel m s g h
    have h1 : should_exit "" = false := by decide
    have h2 : (pyLower "" == "n/a" || pyLower "" == "na") = false := by decide
    have h3 : ¬("" ≠ "") := by simp
    simp only [ask_question_free, wait_for_reply, h, h1, h2, Bool.false_eq_true, if_false,
      Bool.true_and, if_neg h3]
  · intro fuel m s g h
    have hexit : should_exit (pyStrip m.content) = false := by
      simp only [should_exit, pyStrip_idem]
      rcases h with h | h <;> rw [h] <;> decide
    have hna : (pyLower (pyStrip m.content) == "n/a" || pyLower (pyStrip m.content) == "na") =
        true := by
      rcases h with h | h <;> rw [h] <;> decide
    simp only [prompt_team_nick, ask_question_free, wait_for_reply, hexit, Bool.false_eq_true,
      if_false, Bool.true_and, hna, if_true, Except.map]
    rfl
  · intro fuel m s g hexit hna1 hna2 hne
    have hexit2 : should_exit (pyStrip m.content) = false := by
      rw [should_exit_pyStrip]; exact hexit
    have hna : (pyLower (pyStrip m.content) == "n/a" || pyLower (pyStrip m.content) == "na") =
        false := by
      simp [hna1, hna2]
    have hne2 : (pyStrip m.content ≠ "") = True := by simp [hne]
    simp only [prompt_team_nick, ask_question_free, wait_for_reply, hexit2, Bool.false_eq_true,
      if_false, Bool.true_and, hna, hne2, if_true, Except.map]
    simp only [normalize, pyStrip_idem]
    rw [if_neg (by simpa using hne)]

/-- Witness for the amended C8: skip token and plain text instances. -/
theorem C8_amended_label_prompt_witness :
    prompt_team_nick 1 [.reply (msg "N/A")] g0 = .ok (none, [], g0) ∧
    prompt_team_nick 1 [.reply (msg "  Falcons  ")] g0 =
      .ok (some (pyStrip "  Falcons  "), [], g0) :=
  ⟨C8_amended_label_prompt.2.1 0 (msg "N/A") [] g0 (by decide),
   C8_amended_label_prompt.2.2 0 (msg "  Falcons  ") [] g0 (by decide) (by decide) (by decide)
     (by decide)⟩

lemma should_exit_of_exit_content {c : String}
    (h : pyLower (pyStrip c) = "exit" ∨ pyLower (pyStrip c) = "(exit)") :
    should_exit (pyStrip c) = true := by
  rw [should_exit_pyStrip]
  simp only [should_exit]
  rcases h with h | h <;> rw [h] <;> decide

lemma should_exit_lower_of_exit_content {c : String}
    (h : pyLower (pyStrip c) = "exit" ∨ pyLower (pyStrip c) = "(exit)") :
    should_exit (pyLower (pyStrip c)) = true := by
  rcases h with h | h <;> rw [h] <;> decide

/-- C3: a reply whose trimmed, lowercased content is one of the two exit
tokens, and likewise a timeout, raises ConversationCancelled (never a
validation failure) at every reply prompt of collect and review — the
parser-based question, the free-text question, the yes-or-no confirmation
and the review prompt — and whenever collection aborts, the run ends with
the store untouched. -/
theorem C3_exit_and_timeout_cancel :
    (∀ s g, wait_for_reply (Event.timeout :: s) g =
      .error (.cancelled "Timed out waiting for a response.")) ∧
    (∀ (α : Type) fuel na (p : FieldParse α) (m : Msg) s g,
      pyLower (pyStrip m.content) = "exit" ∨ pyLower (pyStrip m.content) = "(exit)" →
      ask_question (fuel + 1) na p (.reply m :: s) g =
        .error (.cancelled "Process cancelled by user.")) ∧
    (∀ fuel na (m : Msg) s g,
      pyLower (pyStrip m.content) = "exit" ∨ pyLower (pyStrip m.content) = "(exit)" →
      ask_question_free (fuel + 1) na (.reply m :: s) g =
        .error (.cancelled "Process cancelled by user.")) ∧
    (∀ fuel (m : Msg) s g,
      pyLower (pyStrip m.content) = "exit" ∨ pyLower (pyStrip m.content) = "(exit)" →
      confirm (fuel + 1) (.reply m :: s) g = .error (.cancelled "Process cancelled by user.")) ∧
    (∀ fuel d (m : Msg) s g,
      pyLower (pyStrip m.content) = "exit" ∨ pyLower (pyStrip m.content) = "(exit)" →
      review_answers (fuel + 1) d (.reply m :: s) g =
        .error (.cancelled "Process cancelled by user.")) ∧
    (∀ (α : Type) fuel na (p : FieldParse α) s g,
      ask_question (fuel + 1) na p (.timeout :: s) g =
        .error (.cancelled "Timed out waiting for a response.")) ∧
    (∀ fuel na s g, ask_question_free (fuel + 1) na (.timeout :: s) g =
      .error (.cancelled "Timed out waiting for a response.")) ∧
    (∀ fuel s g, confirm (fuel + 1) (.timeout :: s) g =
      .error (.cancelled "Timed out waiting for a response.")) ∧
    (∀ fuel d s g, review_answers (fuel + 1) d (.timeout :: s) g =
      .error (.cancelled "Timed out waiting for a response.")) ∧
    (∀ fuel s g grant db e, collect_team_data fuel s g = .error e →
      (create_team_run fuel s g grant db).2 = db) := by
  refine ⟨fun s g => rfl, ?_, ?_, ?_, ?_, fun α fuel na p s g => rfl, fun fuel na s g => rfl,
    fun fuel s g => rfl, fun fuel d s g => rfl, ?_⟩
  · intro α fuel na p m s g h
    simp only [ask_question, wait_for_reply, should_exit_of_exit_content h, if_true]
  · intro fuel na m s g h
    simp only [ask_question_free, wait_for_reply, should_exit_of_exit_content h, if_true]
  · intro fuel m s g h
    simp only [confirm, wait_for_reply, should_exit_lower_of_exit_content h, if_true]
  · intro fuel d m s g h
    simp only [review_answers, wait_for_reply, should_exit_of_exit_content h, if_true]
  · intro fuel s g grant db e h
    simp only [create_team_run, h]
    cases e <;> rfl

/-- Witness for C3: the exit token cancels the year question, and a
timeout at the very first prompt leaves the store unchanged. -/
theorem C3_exit_and_timeout_cancel_witness :
    ask_question 1 false parse_year [.reply (msg " (Exit) ")] g0 =
      .error (.cancelled "Process cancelled by user.") ∧
    (create_team_run 1 [.timeout] g0 (fun _ => .ok) db0).2 = db0 :=
  ⟨C3_exit_and_timeout_cancel.2.1 Nat 0 false parse_year (msg " (Exit) ") [] g0 (by decide),
   C3_exit_and_timeout_cancel.2.2.2.2.2.2.2.2.2 1 [.timeout] g0 (fun _ => .ok) db0
     (.cancelled "Timed out waiting for a response.") (by decide)⟩

/-- Counterexample for C2: a full collection run in which Alice is named
captain and is supplied both as a starter and as a substitute reaches
finalize with the captain in both groups, and finalize commits it; so the
captain is not guaranteed to appear in exactly one of the two groups. -/
theorem C2_counterexample_captain_in_both_groups :
    collect_team_data 20 scriptBothGroups g0 = .ok (draftBothGroups, [], g0) ∧
    draftBothGroups.captain = some memA ∧
    memA ∈ draftBothGroups.starters ∧ memA ∈ draftBothGroups.substitutes ∧
    (finalize_team draftBothGroups (fun _ => .ok) db0).1 = .ok [] := by
  exact ⟨by decide, rfl, by decide, by decide, by decide⟩

/-- C2 amended: when the resolved captain is in neither group, the
post-collect fixup appends exactly one copy of the captain to the starters;
when the captain already appears in either group (including in the
substitutes straight from collection, or in both groups at once) the fixup
changes nothing. -/
theorem C2_amended_captain_fixup :
    (∀ d capt, d.captain = some capt →
      (∀ mem ∈ d.starters, mem.id ≠ capt.id) →
      (∀ mem ∈ d.substitutes, mem.id ≠ capt.id) →
      ensure_captain_assignment d = { d with starters := d.starters ++ [capt] } ∧
      (ensure_captain_assignment d).starters.countP (fun mem => mem.id == capt.id) = 1) ∧
    (∀ d capt, d.captain = some capt →
      ((∃ mem ∈ d.starters, mem.id = capt.id) ∨ (∃ mem ∈ d.substitutes, mem.id = capt.id)) →
      ensure_captain_assignment d = d) := by
  constructor
  · intro d capt hcap hst hsub
    have hs1 : d.substitutes.any (fun mem => mem.id == capt.id) = false := by
      rw [Bool.eq_false_iff]
      intro hc
      rw [List.any_eq_true] at hc
      obtain ⟨mem, hm, hb⟩ := hc
      exact hsub mem hm (by simpa using hb)
    have hs2 : d.starters.any (fun mem => mem.id == capt.id) = false := by
      rw [Bool.eq_false_iff]
      intro hc
      rw [List.any_eq_true] at hc
      obtain ⟨mem, hm, hb⟩ := hc
      exact hst mem hm (by simpa using hb)
    have heq : ensure_captain_assignment d = { d with starters := d.starters ++ [capt] } := by
      simp only [ensure_captain_assignment, hcap, hs1, hs2, Bool.false_eq_true, if_false]
    refine ⟨heq, ?_⟩
    rw [heq]
    simp only [List.countP_append]
    have hz : d.starters.countP (fun mem => mem.id == capt.id) = 0 := by
      rw [List.countP_eq_zero]
      intro mem hm
      simpa using hst mem hm
    simp [hz, List.countP_cons]
  · intro d capt hcap h
    by_cases hs1 : d.substitutes.any (fun mem => mem.id == capt.id) = true
    · simp only [ensure_captain_assignment, hcap, hs1, if_true]
    · have hs2 : d.starters.any (fun mem => mem.id == capt.id) = true := by
        rcases h with h | h
        · rw [List.any_eq_true]
          obtain ⟨mem, hm, hid⟩ := h
          exact ⟨mem, hm, by simpa using hid⟩
        · exfalso
          apply hs1
          rw [List.any_eq_true]
          obtain ⟨mem, hm, hid⟩ := h
          exact ⟨mem, hm, by simpa using hid⟩
      simp only [ensure_captain_assignment, hcap, hs2]
      split <;> rfl

/-- Witness for the amended C2: the fixup appends Alice once when she is in
neither group, and leaves the both-groups draft unchanged. -/
theorem C2_amended_captain_fixup_witness :
    (ensure_captain_assignment draftNoCapt =
      { draftNoCapt with starters := draftNoCapt.starters ++ [memA] } ∧
     (ensure_captain_assignment draftNoCapt).starters.countP
       (fun mem => mem.id == memA.id) = 1) ∧
    ensure_captain_assignment draftBothGroups = draftBothGroups :=
  ⟨C2_amended_captain_fixup.1 draftNoCapt memA (by decide) (by decide) (by decide),
   C2_amended_captain_fixup.2 draftBothGroups memA (by decide)
     (Or.inl ⟨memA, by decide, rfl⟩)⟩

lemma should_exit_fieldName (f : Field) : should_exit (fieldName f) = false := by
  cases f <;> decide

lemma lower_fieldName_confirm (f : Field) : (pyLower (fieldName f) == "confirm") = false := by
  cases f <;> decide

lemma parseField_lower_fieldName (f : Field) : parseField (pyLower (fieldName f)) = some f := by
  cases f <;> decide

lemma review_step_field (fuel : Nat) (d : TeamCreationData) (m : Msg) (s : Script) (g : Guild)
    (f : Field) (h : pyStrip m.content = fieldName f) :
    review_answers (fuel + 1) d (.reply m :: s) g =
      match runFieldPrompt f d fuel s g with
      | .error e => .error e
      | .ok (v, s2, g2) => review_answers fuel (setField d f v) s2 g2 := by
  simp only [review_answers, wait_for_reply, h, should_exit_fieldName, lower_fieldName_confirm,
    parseField_lower_fieldName, Bool.false_eq_true, if_false]

lemma review_step_confirm (fuel : Nat) (d : TeamCreationData) (m : Msg) (s : Script) (g : Guild)
    (h : pyStrip m.content = "confirm") :
    review_answers (fuel + 1) d (.reply m :: s) g = .ok (d, s, g) := by
  have h1 : should_exit "confirm" = false := by decide
  have h2 : (pyLower "confirm" == "confirm") = true := by decide
  simp only [review_answers, wait_for_reply, h, h1, h2, Bool.false_eq_true, if_false, if_true]

/-- C10: a review edit of one field re-runs that field prompt and
overwrites exactly that one draft attribute — every other attribute is
unchanged, the group value is stored as supplied, and neither the
deduplication pass nor the captain fixup runs again — so one edit followed
by the confirm token yields the draft with that single attribute replaced
by the freshly parsed value. -/
theorem C10_review_edit_frame :
    (∀ fuel d (m : Msg) s g f, pyStrip m.content = fieldName f →
      review_answers (fuel + 1) d (.reply m :: s) g =
        match runFieldPrompt f d fuel s g with
        | .error e => .error e
        | .ok (v, s2, g2) => review_answers fuel (setField d f v) s2 g2) ∧
    (∀ d f v, eraseField f (setField d f v) = eraseField f d) ∧
    (∀ (d : TeamCreationData) (v : List Member),
      (setField d .starters (.groupV v)).starters = v) ∧
    (∀ fuel d (m : Msg) s g f v (m2 : Msg) s2 g2,
      pyStrip m.content = fieldName f →
      runFieldPrompt f d (fuel + 1) s g = .ok (v, .reply m2 :: s2, g2) →
      pyStrip m2.content = "confirm" →
      review_answers (fuel + 2) d (.reply m :: s) g = .ok (setField d f v, s2, g2)) := by
  refine ⟨review_step_field, ?_, fun d v => rfl, ?_⟩
  · intro d f v
    cases f <;> cases v <;> rfl
  · intro fuel d m s g f v m2 s2 g2 h1 hrun h2
    rw [review_step_field (fuel + 1) d m s g f h1, hrun]
    exact review_step_confirm fuel (setField d f v) m2 s2 g2 h2

/-- Witness for C10: editing the year to 2026 and confirming yields the
fixture draft with only the year replaced. -/
theorem C10_review_edit_frame_witness :
    review_answers 2 draftABC [.reply (msg "year"), .reply (msg "2026"), .reply (msg "confirm")]
      g0 = .ok (setField draftABC .year (.natV (some 2026)), [], g0) :=
  C10_review_edit_frame.2.2.2 0 draftABC (msg "year") [.reply (msg "2026"),
    .reply (msg "confirm")] g0 .year (.natV (some 2026)) (msg "confirm") [] g0
    (by decide) (by decide) (by decide)

lemma conflict_check_iff (r c ch : Nat) (db : DB) :
    conflict_check r c ch db = true ↔
      ∃ t ∈ db.teams, t.roleId = r ∧ t.categoryId = c ∧ t.channelId = ch ∧
        t.archived = false := by
  simp only [conflict_check, List.any_eq_true, Bool.and_eq_true, beq_iff_eq,
    Bool.not_eq_true']
  constructor
  · rintro ⟨t, ht, ⟨⟨h1, h2⟩, h3⟩, h4⟩
    exact ⟨t, ht, h1, h2, h3, h4⟩
  · rintro ⟨t, ht, h1, h2, h3, h4⟩
    exact ⟨t, ht, ⟨⟨h1, h2⟩, h3⟩, h4⟩

/-- C1: with a complete draft, if a non-archived committed team row already
shares the same role, category and channel, finalize fails with the
conflict TeamCreationError and the store is returned exactly as it was — no
team row inserted and the membership table untouched. -/
theorem C1_finalize_conflict_atomic :
    ∀ d grant db role cat chan capt y sem sen,
    d.role = some role → d.category = some cat → d.channel = some chan →
    d.captain = some capt → d.year = some y → y ≠ 0 → d.semester = some sem →
    sem ≠ "" → d.seniority = some sen →
    (∃ t ∈ db.teams, t.roleId = role.id ∧ t.categoryId = cat.id ∧ t.channelId = chan.id ∧
      t.archived = false) →
    finalize_team d grant db = (.error (.teamCreationError conflictMsg), db) ∧
    (finalize_team d grant db).2.teams = db.teams ∧
    (finalize_team d grant db).2.memberships = db.memberships := by
  intro d grant db role cat chan capt y sem sen hr hc hch hcap hy hy0 hs hs0 hsen hconf
  have hcf : conflict_check role.id cat.id chan.id db = true :=
    (conflict_check_iff _ _ _ _).mpr hconf
  have hy0b : (y == 0) = false := by simpa using hy0
  have hs0b : (sem == "") = false := by simpa using hs0
  have heq : finalize_team d grant db = (.error (.teamCreationError conflictMsg), db) := by
    simp only [finalize_team, hr, hc, hch, hcap, hy, hs, hsen, hy0b, hs0b, Bool.or_self,
      Bool.false_eq_true, if_false, run_in_transaction, db_transaction, hcf, if_true]
  exact ⟨heq, by rw [heq], by rw [heq]⟩

/-- Witness for C1, also realising the two-attempt conflict invariant: the
first finalize of the fixture draft commits, and the second finalize of the
same triple against the committed store fails with the conflict error and
leaves that store unchanged. -/
theorem C1_finalize_conflict_atomic_witness :
    finalize_team draftABC (fun _ => .ok) (finalize_team draftABC (fun _ => .ok) db0).2 =
      (.error (.teamCreationError conflictMsg),
        (finalize_team draftABC (fun _ => .ok) db0).2) :=
  (C1_finalize_conflict_atomic draftABC (fun _ => .ok)
    (finalize_team draftABC (fun _ => .ok) db0).2 role1 cat2 chan3 memA 2025 "Fall" 3
    rfl rfl rfl rfl rfl (by decide) rfl (by decide) rfl (by decide)).1

lemma upsert_player_teams (db : DB) (n : Nat) : (upsert_player db n).teams = db.teams := by
  simp only [upsert_player]
  split <;> rfl

lemma upsert_player_memberships (db : DB) (n : Nat) :
    (upsert_player db n).memberships = db.memberships := by
  simp only [upsert_player]
  split <;> rfl

lemma foldl_upsert_player_teams (members : List Member) (db : DB) :
    (members.foldl (fun acc mem => upsert_player acc mem.id) db).teams = db.teams := by
  induction members generalizing db with
  | nil => rfl
  | cons mem rest ih =>
    simp only [List.foldl_cons]
    rw [ih, upsert_player_teams]

lemma foldl_upsert_player_memberships (members : List Member) (db : DB) :
    (members.foldl (fun acc mem => upsert_player acc mem.id) db).memberships =
      db.memberships := by
  induction members generalizing db with
  | nil => rfl
  | cons mem rest ih =>
    simp only [List.foldl_cons]
    rw [ih, upsert_player_memberships]

lemma foldl_upsert_member_eq (tid : Nat) (st : String) (members : List Member) (db : DB) :
    members.foldl (fun acc mem => upsert_member tid st acc mem.id) db =
      { db with memberships := apply_group tid st members db.memberships } := by
  induction members generalizing db with
  | nil => rfl
  | cons mem rest ih =>
    simp only [List.foldl_cons, apply_group]
    rw [ih]
    rfl

lemma finalize_team_success (d : TeamCreationData) (grant : Member → GrantOutcome) (db : DB)
    (role : Role) (cat : CategoryChannel) (chan : TextChannel) (capt : Member)
    (y : Nat) (sem : String) (sen : Nat)
    (hr : d.role = some role) (hc : d.category = some cat) (hch : d.channel = some chan)
    (hcap : d.captain = some capt) (hy : d.year = some y) (hy0 : y ≠ 0)
    (hs : d.semester = some sem) (hs0 : sem ≠ "") (hsen : d.seniority = some sen)
    (hconf : conflict_check role.id cat.id chan.id db = false) :
    (finalize_team d grant db).1 =
      .ok ((involved_members d).filterMap (grant_warning grant)) ∧
    (finalize_team d grant db).2.teams = db.teams ++
      [⟨db.nextTeamId, d.team_nick, role.id, chan.id, cat.id, capt.id, y, sem, sen, false⟩] ∧
    (finalize_team d grant db).2.memberships =
      apply_group db.nextTeamId "sub" d.substitutes
        (apply_group db.nextTeamId "starter" d.starters db.memberships) := by
  have hy0b : (y == 0) = false := by simpa using hy0
  have hs0b : (sem == "") = false := by simpa using hs0
  refine ⟨?_, ?_, ?_⟩ <;>
    simp only [finalize_team, hr, hc, hch, hcap, hy, hs, hsen, hy0b, hs0b, Bool.or_self,
      Bool.false_eq_true, if_false, run_in_transaction, db_transaction, hconf,
      foldl_upsert_member_eq, upsert_player_teams, upsert_player_memberships,
      foldl_upsert_player_teams, foldl_upsert_player_memberships]

lemma dedupe_aux_pairwise (l acc : List Member)
    (h : acc.Pairwise (fun a b => a.id ≠ b.id)) :
    (l.foldl (fun acc mem => if acc.any (fun e => e.id == mem.id) then acc else acc ++ [mem])
      acc).Pairwise (fun a b => a.id ≠ b.id) := by
  induction l generalizing acc with
  | nil => simpa using h
  | cons mem rest ih =>
    simp only [List.foldl_cons]
    by_cases ha : acc.any (fun e => e.id == mem.id) = true
    · rw [if_pos ha]
      exact ih acc h
    · rw [if_neg ha]
      apply ih
      rw [List.pairwise_append]
      refine ⟨h, List.pairwise_singleton _ _, ?_⟩
      intro a ha2 b hb
      simp only [List.mem_singleton] at hb
      subst hb
      intro heq
      apply ha
      rw [List.any_eq_true]
      exact ⟨a, ha2, by simpa using heq⟩

lemma dedupe_aux_mem (l acc : List Member) (x : Nat) :
    (∃ mem ∈ l.foldl
        (fun acc mem => if acc.any (fun e => e.id == mem.id) then acc else acc ++ [mem]) acc,
      mem.id = x) ↔
      (∃ mem ∈ acc, mem.id = x) ∨ (∃ mem ∈ l, mem.id = x) := by
  induction l generalizing acc with
  | nil => simp
  | cons mem rest ih =>
    simp only [List.foldl_cons]
    by_cases ha : acc.any (fun e => e.id == mem.id) = true
    · rw [if_pos ha, ih]
      rw [List.any_eq_true] at ha
      obtain ⟨e, he, heq⟩ := ha
      simp only [beq_iff_eq] at heq
      constructor
      · rintro (h | ⟨m2, hm2, hid⟩)
        · exact Or.inl h
        · exact Or.inr ⟨m2, List.mem_cons_of_mem _ hm2, hid⟩
      · rintro (h | ⟨m2, hm2, hid⟩)
        · exact Or.inl h
        · cases hm2 with
          | head => exact Or.inl ⟨e, he, heq.trans hid⟩
          | tail _ hm3 => exact Or.inr ⟨m2, hm3, hid⟩
    · rw [if_neg ha, ih]
      constructor
      · rintro (⟨m2, hm2, hid⟩ | ⟨m2, hm2, hid⟩)
        · rw [List.mem_append] at hm2
          cases hm2 with
          | inl h2 => exact Or.inl ⟨m2, h2, hid⟩
          | inr h2 =>
            simp only [List.mem_singleton] at h2
            subst h2
            exact Or.inr ⟨m2, List.mem_cons_self _ _, hid⟩
        · exact Or.inr ⟨m2, List.mem_cons_of_mem _ hm2, hid⟩
      · rintro (⟨m2, hm2, hid⟩ | ⟨m2, hm2, hid⟩)
        · exact Or.inl ⟨m2, List.mem_append_left _ hm2, hid⟩
        · cases hm2 with
          | head => exact Or.inl ⟨mem, List.mem_append_right _ (List.mem_singleton.mpr rfl), hid⟩
          | tail _ hm3 => exact Or.inr ⟨m2, hm3, hid⟩

lemma dedupe_members_pairwise (l : List Member) :
    (dedupe_members l).Pairwise (fun a b => a.id ≠ b.id) :=
  dedupe_aux_pairwise l [] List.Pairwise.nil

lemma mem_dedupe_members_iff (l : List Member) (x : Nat) :
    (∃ mem ∈ dedupe_members l, mem.id = x) ↔ (∃ mem ∈ l, mem.id = x) := by
  have h := dedupe_aux_mem l [] x
  simpa [dedupe_members] using h

lemma filterMap_grant_warning_all_ok (grant : Member → GrantOutcome) (l : List Member)
    (h : ∀ mem ∈ l, grant mem = .ok) : l.filterMap (grant_warning grant) = [] := by
  rw [List.filterMap_eq_nil_iff]
  intro mem hm
  simp [grant_warning, h mem hm]

lemma filterMap_single_failure (grant : Member → GrantOutcome) (Cm : Member)
    (l : List Member) (hpw : l.Pairwise (fun a b => a.id ≠ b.id)) (hmem : Cm ∈ l)
    (hC : grant Cm = .forbidden)
    (hok : ∀ mem ∈ l, mem.id ≠ Cm.id → grant mem = .ok) :
    l.filterMap (grant_warning grant) =
      ["Missing permission to assign role to " ++ Cm.displayName ++ "."] := by
  induction l with
  | nil => cases hmem
  | cons hd tl ih =>
    rw [List.pairwise_cons] at hpw
    rw [List.filterMap_cons]
    cases hmem with
    | head =>
      have hw : grant_warning grant Cm =
          some ("Missing permission to assign role to " ++ Cm.displayName ++ ".") := by
        simp [grant_warning, hC]
      rw [hw]
      have htl : tl.filterMap (grant_warning grant) = [] := by
        apply filterMap_grant_warning_all_ok
        intro mem hm
        exact hok mem (List.mem_cons_of_mem _ hm) (fun he => hpw.1 mem hm he.symm)
      rw [htl]
    | tail _ hmem2 =>
      have hhd : grant hd = .ok :=
        hok hd (List.mem_cons_self _ _) (hpw.1 Cm hmem2)
      have hw : grant_warning grant hd = none := by simp [grant_warning, hhd]
      rw [hw]
      exact ih hpw.2 hmem2 (fun mem hm hne => hok mem (List.mem_cons_of_mem _ hm) hne)

/-- C4: after the transaction commits, the role grant is attempted exactly
once per distinct involved member — the id-deduplicated union of captain,
starters and substitutes — each failure becomes one non-fatal warning, the
team row stays committed regardless, the warning list is empty when every
grant succeeds, and if only Charlie-like member C fails with a permission
error the run succeeds with exactly one warning referencing C. -/
theorem C4_role_grants_once_and_nonfatal :
    ∀ d grant db role cat chan capt y sem sen,
    d.role = some role → d.category = some cat → d.channel = some chan →
    d.captain = some capt → d.year = some y → y ≠ 0 → d.semester = some sem →
    sem ≠ "" → d.seniority = some sen →
    conflict_check role.id cat.id chan.id db = false →
    ((finalize_team d grant db).1 =
        .ok ((involved_members d).filterMap (grant_warning grant)) ∧
      (involved_members d).Pairwise (fun a b => a.id ≠ b.id) ∧
      (∀ x, (∃ mem ∈ involved_members d, mem.id = x) ↔
        (capt.id = x ∨ (∃ mem ∈ d.starters, mem.id = x) ∨
          (∃ mem ∈ d.substitutes, mem.id = x))) ∧
      ((∀ mem ∈ involved_members d, grant mem = .ok) →
        (finalize_team d grant db).1 = .ok []) ∧
      (finalize_team d grant db).2.teams = db.teams ++
        [⟨db.nextTeamId, d.team_nick, role.id, chan.id, cat.id, capt.id, y, sem, sen, false⟩] ∧
      (∀ Cm ∈ involved_members d, grant Cm = .forbidden →
        (∀ mem ∈ involved_members d, mem.id ≠ Cm.id → grant mem = .ok) →
        (finalize_team d grant db).1 =
          .ok ["Missing permission to assign role to " ++ Cm.displayName ++ "."])) := by
  intro d grant db role cat chan capt y sem sen hr hc hch hcap hy hy0 hs hs0 hsen hconf
  obtain ⟨hfst, hteams, _⟩ :=
    finalize_team_success d grant db role cat chan capt y sem sen
      hr hc hch hcap hy hy0 hs hs0 hsen hconf
  have hpw : (involved_members d).Pairwise (fun a b => a.id ≠ b.id) :=
    dedupe_members_pairwise _
  refine ⟨hfst, hpw, ?_, ?_, hteams, ?_⟩
  · intro x
    rw [involved_members, hcap, mem_dedupe_members_iff]
    constructor
    · rintro ⟨m2, hm2, hid⟩
      rw [List.append_assoc, List.mem_append] at hm2
      cases hm2 with
      | inl h2 =>
        simp only [List.mem_singleton] at h2
        subst h2
        exact Or.inl hid
      | inr h2 =>
        rw [List.mem_append] at h2
        cases h2 with
        | inl h3 => exact Or.inr (Or.inl ⟨m2, h3, hid⟩)
        | inr h3 => exact Or.inr (Or.inr ⟨m2, h3, hid⟩)
    · rintro (h | ⟨m2, hm2, hid⟩ | ⟨m2, hm2, hid⟩)
      · exact ⟨capt, by simp, h⟩
      · exact ⟨m2, by simp [hm2], hid⟩
      · exact ⟨m2, by simp [hm2], hid⟩
  · intro hall
    rw [hfst, filterMap_grant_warning_all_ok grant _ hall]
  · intro Cm hCm hCf hCok
    rw [hfst, filterMap_single_failure grant Cm _ hpw hCm hCf hCok]

/-- Witness for C4: with the fixture draft, the failing grant for Charlie
yields exactly one warning referencing Charlie while the team is created,
and the all-success oracle yields no warnings. -/
theorem C4_role_grants_once_and_nonfatal_witness :
    (finalize_team draftABC grantFailC db0).1 =
      .ok ["Missing permission to assign role to " ++ memC.displayName ++ "."] ∧
    (finalize_team draftABC (fun _ => .ok) db0).1 = .ok [] :=
  ⟨(C4_role_grants_once_and_nonfatal draftABC grantFailC db0 role1 cat2 chan3 memA 2025
      "Fall" 3 rfl rfl rfl rfl rfl (by decide) rfl (by decide) rfl (by decide)).2.2.2.2.2
      memC (by decide) (by decide) (by decide),
   (C4_role_grants_once_and_nonfatal draftABC (fun _ => .ok) db0 role1 cat2 chan3 memA 2025
      "Fall" 3 rfl rfl rfl rfl rfl (by decide) rfl (by decide) rfl (by decide)).2.2.2.1
      (fun _ _ => rfl)⟩

lemma countKey_cons (r : MembershipRow) (rs : List MembershipRow) (tid pid : Nat) :
    countKey (r :: rs) tid pid =
      (if keyMatch tid pid r = true then 1 else 0) + countKey rs tid pid := by
  simp [countKey, List.countP_cons, Nat.add_comm]

lemma hasKey_cons (r : MembershipRow) (rs : List MembershipRow) (tid pid : Nat) :
    hasKey (r :: rs) tid pid = (keyMatch tid pid r || hasKey rs tid pid) := by
  simp [hasKey]

lemma findStatus_cons (r : MembershipRow) (rs : List MembershipRow) (tid pid : Nat) :
    findStatus (r :: rs) tid pid =
      if keyMatch tid pid r = true then some r.status else findStatus rs tid pid := by
  simp only [findStatus, List.find?_cons]
  by_cases hk : keyMatch tid pid r = true
  · rw [hk]
    simp
  · rw [Bool.eq_false_iff.mpr hk]
    simp [hk]

lemma keyMatch_update (tid pid : Nat) (st : String) (r : MembershipRow) :
    keyMatch tid pid { r with status := st } = keyMatch tid pid r := rfl

lemma keyMatch_self_iff (tid pid tid' pid' : Nat) (st : String) :
    keyMatch tid' pid' ⟨tid, pid, st⟩ = true ↔ tid' = tid ∧ pid' = pid := by
  simp only [keyMatch, Bool.and_eq_true, beq_iff_eq]
  constructor
  · rintro ⟨h1, h2⟩
    exact ⟨h1.symm, h2.symm⟩
  · rintro ⟨h1, h2⟩
    exact ⟨h1.symm, h2.symm⟩

lemma countKey_upsertRow_same (tid pid : Nat) (st : String) (ms : List MembershipRow) :
    countKey (upsertRow tid pid st ms) tid pid =
      if hasKey ms tid pid = true then countKey ms tid pid else countKey ms tid pid + 1 := by
  induction ms with
  | nil =>
    simp only [upsertRow, hasKey, List.any_nil]
    rw [countKey_cons]
    simp [keyMatch_self_iff, countKey]
  | cons r rs ih =>
    simp only [upsertRow]
    by_cases hk : (r.teamId == tid && r.playerId == pid) = true
    · rw [if_pos hk]
      have hkm : keyMatch tid pid r = true := hk
      rw [countKey_cons, countKey_cons, hasKey_cons, hkm, keyMatch_update, hkm]
      simp
    · rw [if_neg hk]
      have hkm : keyMatch tid pid r = false := Bool.eq_false_iff.mpr hk
      rw [countKey_cons, countKey_cons, hasKey_cons, hkm, ih]
      simp

lemma countKey_upsertRow_other (tid pid : Nat) (st : String) (ms : List MembershipRow)
    (tid' pid' : Nat) (h : ¬(tid' = tid ∧ pid' = pid)) :
    countKey (upsertRow tid pid st ms) tid' pid' = countKey ms tid' pid' := by
  induction ms with
  | nil =>
    simp only [upsertRow]
    rw [countKey_cons]
    have hk : keyMatch tid' pid' ⟨tid, pid, st⟩ = false := by
      rw [Bool.eq_false_iff]
      intro hc
      exact h ((keyMatch_self_iff tid pid tid' pid' st).mp hc)
    simp [hk, countKey]
  | cons r rs ih =>
    simp only [upsertRow]
    by_cases hk : (r.teamId == tid && r.playerId == pid) = true
    · rw [if_pos hk, countKey_cons, countKey_cons, keyMatch_update]
    · rw [if_neg hk, countKey_cons, countKey_cons, ih]

lemma hasKey_upsertRow_same (tid pid : Nat) (st : String) (ms : List MembershipRow) :
    hasKey (upsertRow tid pid st ms) tid pid = true := by
  induction ms with
  | nil =>
    simp only [upsertRow]
    rw [hasKey_cons]
    simp [keyMatch_self_iff]
  | cons r rs ih =>
    simp only [upsertRow]
    by_cases hk : (r.teamId == tid && r.playerId == pid) = true
    · rw [if_pos hk, hasKey_cons, keyMatch_update]
      have hkm : keyMatch tid pid r = true := hk
      rw [hkm]
      rfl
    · rw [if_neg hk, hasKey_cons, ih]
      simp

lemma hasKey_upsertRow_other (tid pid : Nat) (st : String) (ms : List MembershipRow)
    (tid' pid' : Nat) (h : ¬(tid' = tid ∧ pid' = pid)) :
    hasKey (upsertRow tid pid st ms) tid' pid' = hasKey ms tid' pid' := by
  induction ms with
  | nil =>
    simp only [upsertRow]
    rw [hasKey_cons]
    have hk : keyMatch tid' pid' ⟨tid, pid, st⟩ = false := by
      rw [Bool.eq_false_iff]
      intro hc
      exact h ((keyMatch_self_iff tid pid tid' pid' st).mp hc)
    simp [hk, hasKey]
  | cons r rs ih =>
    simp only [upsertRow]
    by_cases hk : (r.teamId == tid && r.playerId == pid) = true
    · rw [if_pos hk, hasKey_cons, hasKey_cons, keyMatch_update]
    · rw [if_neg hk, hasKey_cons, hasKey_cons, ih]

lemma findStatus_upsertRow_same (tid pid : Nat) (st : String) (ms : List MembershipRow) :
    findStatus (upsertRow tid pid st ms) tid pid = some st := by
  induction ms with
  | nil =>
    simp only [upsertRow]
    rw [findStatus_cons]
    simp [keyMatch_self_iff]
  | cons r rs ih =>
    simp only [upsertRow]
    by_cases hk : (r.teamId == tid && r.playerId == pid) = true
    · rw [if_pos hk, findStatus_cons, keyMatch_update]
      have hkm : keyMatch tid pid r = true := hk
      rw [if_pos hkm]
    · rw [if_neg hk, findStatus_cons]
      have hkm : keyMatch tid pid r = false := Bool.eq_false_iff.mpr hk
      rw [hkm]
      simpa using ih

lemma findStatus_upsertRow_other (tid pid : Nat) (st : String) (ms : List MembershipRow)
    (tid' pid' : Nat) (h : ¬(tid' = tid ∧ pid' = pid)) :
    findStatus (upsertRow tid pid st ms) tid' pid' = findStatus ms tid' pid' := by
  induction ms with
  | nil =>
    simp only [upsertRow]
    rw [findStatus_cons]
    have hk : keyMatch tid' pid' ⟨tid, pid, st⟩ = false := by
      rw [Bool.eq_false_iff]
      intro hc
      exact h ((keyMatch_self_iff tid pid tid' pid' st).mp hc)
    rw [hk]
    rfl
  | cons r rs ih =>
    simp only [upsertRow]
    by_cases hk : (r.teamId == tid && r.playerId == pid) = true
    · rw [if_pos hk, findStatus_cons, findStatus_cons, keyMatch_update]
      have hkm : keyMatch tid' pid' r = false := by
        rw [Bool.eq_false_iff]
        intro hc
        simp only [keyMatch, Bool.and_eq_true, beq_iff_eq] at hc hk
        exact h ⟨by rw [← hc.1, hk.1], by rw [← hc.2, hk.2]⟩
      simp [hkm]
    · rw [if_neg hk, findStatus_cons, findStatus_cons, ih]

lemma apply_group_cons (tid : Nat) (st : String) (mem : Member) (rest : List Member)
    (ms : List MembershipRow) :
    apply_group tid st (mem :: rest) ms = apply_group tid st rest (upsertRow tid mem.id st ms) :=
  rfl

lemma apply_group_not_mem (tid : Nat) (st : String) (group : List Member)
    (ms : List MembershipRow) (tid' pid' : Nat)
    (h : tid' ≠ tid ∨ ∀ mem ∈ group, mem.id ≠ pid') :
    countKey (apply_group tid st group ms) tid' pid' = countKey ms tid' pid' ∧
    hasKey (apply_group tid st group ms) tid' pid' = hasKey ms tid' pid' ∧
    findStatus (apply_group tid st group ms) tid' pid' = findStatus ms tid' pid' := by
  induction group generalizing ms with
  | nil => exact ⟨rfl, rfl, rfl⟩
  | cons mem rest ih =>
    rw [apply_group_cons]
    have hkey : ¬(tid' = tid ∧ pid' = mem.id) := by
      rcases h with h | h
      · exact fun hc => h hc.1
      · exact fun hc => h mem (List.mem_cons_self _ _) hc.2.symm
    have htail : tid' ≠ tid ∨ ∀ mem2 ∈ rest, mem2.id ≠ pid' := by
      rcases h with h | h
      · exact Or.inl h
      · exact Or.inr (fun mem2 hm => h mem2 (List.mem_cons_of_mem _ hm))
    obtain ⟨h1, h2, h3⟩ := ih (upsertRow tid mem.id st ms) htail
    exact ⟨h1.trans (countKey_upsertRow_other _ _ _ _ _ _ hkey),
           h2.trans (hasKey_upsertRow_other _ _ _ _ _ _ hkey),
           h3.trans (findStatus_upsertRow_other _ _ _ _ _ _ hkey)⟩

lemma apply_group_mem (tid : Nat) (st : String) (group : List Member)
    (ms : List MembershipRow) (pid : Nat) (h : ∃ mem ∈ group, mem.id = pid) :
    hasKey (apply_group tid st group ms) tid pid = true ∧
    countKey (apply_group tid st group ms) tid pid =
      (if hasKey ms tid pid = true then countKey ms tid pid else countKey ms tid pid + 1) ∧
    findStatus (apply_group tid st group ms) tid pid = some st := by
  induction group generalizing ms with
  | nil =>
    obtain ⟨mem, hm, _⟩ := h
    cases hm
  | cons mem rest ih =>
    rw [apply_group_cons]
    by_cases hrest : ∃ mem2 ∈ rest, mem2.id = pid
    · obtain ⟨hh, hc, hf⟩ := ih (upsertRow tid mem.id st ms) hrest
      by_cases hmem : mem.id = pid
      · subst hmem
        refine ⟨hh, ?_, hf⟩
        rw [hc, hasKey_upsertRow_same, countKey_upsertRow_same]
        by_cases h0 : hasKey ms tid mem.id = true
        · simp [h0]
        · simp [h0]
      · have hkey : ¬(tid = tid ∧ pid = mem.id) := fun hc2 => hmem hc2.2.symm
        refine ⟨hh, ?_, hf⟩
        rw [hc, hasKey_upsertRow_other _ _ _ _ _ _ hkey,
          countKey_upsertRow_other _ _ _ _ _ _ hkey]
    · have hmem : mem.id = pid := by
        obtain ⟨m2, hm2, hid⟩ := h
        cases hm2 with
        | head => exact hid
        | tail _ hm3 => exact absurd ⟨m2, hm3, hid⟩ hrest
      have htail : tid ≠ tid ∨ ∀ mem2 ∈ rest, mem2.id ≠ pid :=
        Or.inr (fun mem2 hm2 hid => hrest ⟨mem2, hm2, hid⟩)
      obtain ⟨h1, h2, h3⟩ :=
        apply_group_not_mem tid st rest (upsertRow tid mem.id st ms) tid pid htail
      subst hmem
      exact ⟨h2.trans (hasKey_upsertRow_same _ _ _ _),
             h1.trans (countKey_upsertRow_same _ _ _ _),
             h3.trans (findStatus_upsertRow_same _ _ _ _)⟩

lemma fresh_key (ms : List MembershipRow) (tid pid : Nat)
    (h : ∀ r ∈ ms, r.teamId ≠ tid) :
    hasKey ms tid pid = false ∧ countKey ms tid pid = 0 := by
  constructor
  · rw [Bool.eq_false_iff]
    intro hc
    rw [hasKey, List.any_eq_true] at hc
    obtain ⟨r, hr, hk⟩ := hc
    simp only [keyMatch, Bool.and_eq_true, beq_iff_eq] at hk
    exact h r hr hk.1
  · rw [countKey, List.countP_eq_zero]
    intro r hr hk
    simp only [keyMatch, Bool.and_eq_true, beq_iff_eq] at hk
    exact h r hr hk.1

/-- C5: in a successful finalize the membership rows stay unique per
(teamId, memberId) key; starters are upserted first with status starter,
then substitutes with status sub, a later upsert for the same member
overwriting the earlier status, so a member present in both groups ends the
commit with exactly one membership row whose status is sub. -/
theorem C5_membership_upsert_last_status_wins :
    ∀ d grant db role cat chan capt y sem sen,
    d.role = some role → d.category = some cat → d.channel = some chan →
    d.captain = some capt → d.year = some y → y ≠ 0 → d.semester = some sem →
    sem ≠ "" → d.seniority = some sen →
    conflict_check role.id cat.id chan.id db = false →
    (∀ r ∈ db.memberships, r.teamId ≠ db.nextTeamId) →
    (∀ tid pid, countKey db.memberships tid pid ≤ 1) →
    ((∀ tid pid, countKey (finalize_team d grant db).2.memberships tid pid ≤ 1) ∧
     (∀ mem ∈ d.substitutes,
        findStatus (finalize_team d grant db).2.memberships db.nextTeamId mem.id =
          some "sub") ∧
     (∀ mem ∈ d.starters, (∀ mem2 ∈ d.substitutes, mem2.id ≠ mem.id) →
        findStatus (finalize_team d grant db).2.memberships db.nextTeamId mem.id =
          some "starter") ∧
     (∀ mem ∈ d.starters, (∃ mem2 ∈ d.substitutes, mem2.id = mem.id) →
        countKey (finalize_team d grant db).2.memberships db.nextTeamId mem.id = 1 ∧
        findStatus (finalize_team d grant db).2.memberships db.nextTeamId mem.id =
          some "sub")) := by
  intro d grant db role cat chan capt y sem sen hr hc hch hcap hy hy0 hs hs0 hsen hconf
    hfresh huniq
  obtain ⟨-, -, hmemb⟩ := finalize_team_success d grant db role cat chan capt y sem sen
    hr hc hch hcap hy hy0 hs hs0 hsen hconf
  rw [hmemb]
  have hfk : ∀ pid, hasKey db.memberships db.nextTeamId pid = false ∧
      countKey db.memberships db.nextTeamId pid = 0 :=
    fun pid => fresh_key db.memberships db.nextTeamId pid hfresh
  refine ⟨?_, ?_, ?_, ?_⟩
  · intro tid pid
    by_cases hsub : tid = db.nextTeamId ∧ ∃ mem2 ∈ d.substitutes, mem2.id = pid
    · obtain ⟨htid, hex⟩ := hsub
      subst htid
      obtain ⟨-, hcnt, -⟩ := apply_group_mem db.nextTeamId "sub" d.substitutes
        (apply_group db.nextTeamId "starter" d.starters db.memberships) pid hex
      rw [hcnt]
      by_cases hst : ∃ mem2 ∈ d.starters, mem2.id = pid
      · obtain ⟨hh1, hc1, -⟩ := apply_group_mem db.nextTeamId "starter" d.starters
          db.memberships pid hst
        rw [hh1, hc1, (hfk pid).1, (hfk pid).2]
        simp
      · obtain ⟨hc1, hh1, -⟩ := apply_group_not_mem db.nextTeamId "starter" d.starters
          db.memberships db.nextTeamId pid (Or.inr (fun mem2 hm hid => hst ⟨mem2, hm, hid⟩))
        rw [hh1, hc1, (hfk pid).1, (hfk pid).2]
        simp
    · have hOuter : tid ≠ db.nextTeamId ∨ ∀ mem2 ∈ d.substitutes, mem2.id ≠ pid := by
        by_cases htid : tid = db.nextTeamId
        · exact Or.inr (fun mem2 hm hid => hsub ⟨htid, mem2, hm, hid⟩)
        · exact Or.inl htid
      obtain ⟨hcnt, -, -⟩ := apply_group_not_mem db.nextTeamId "sub" d.substitutes
        (apply_group db.nextTeamId "starter" d.starters db.memberships) tid pid hOuter
      rw [hcnt]
      by_cases hst : tid = db.nextTeamId ∧ ∃ mem2 ∈ d.starters, mem2.id = pid
      · obtain ⟨htid, hex⟩ := hst
        subst htid
        obtain ⟨-, hc1, -⟩ := apply_group_mem db.nextTeamId "starter" d.starters
          db.memberships pid hex
        rw [hc1, (hfk pid).1, (hfk pid).2]
        simp
      · have hInner : tid ≠ db.nextTeamId ∨ ∀ mem2 ∈ d.starters, mem2.id ≠ pid := by
          by_cases htid : tid = db.nextTeamId
          · exact Or.inr (fun mem2 hm hid => hst ⟨htid, mem2, hm, hid⟩)
          · exact Or.inl htid
        obtain ⟨hc1, -, -⟩ := apply_group_not_mem db.nextTeamId "starter" d.starters
          db.memberships tid pid hInner
        rw [hc1]
        exact huniq tid pid
  · intro mem hm
    exact (apply_group_mem db.nextTeamId "sub" d.substitutes
      (apply_group db.nextTeamId "starter" d.starters db.memberships) mem.id
      ⟨mem, hm, rfl⟩).2.2
  · intro mem hm hnot
    obtain ⟨-, -, hf⟩ := apply_group_not_mem db.nextTeamId "sub" d.substitutes
      (apply_group db.nextTeamId "starter" d.starters db.memberships) db.nextTeamId mem.id
      (Or.inr hnot)
    rw [hf]
    exact (apply_group_mem db.nextTeamId "starter" d.starters db.memberships mem.id
      ⟨mem, hm, rfl⟩).2.2
  · intro mem hm hex
    obtain ⟨-, hcnt, hf⟩ := apply_group_mem db.nextTeamId "sub" d.substitutes
      (apply_group db.nextTeamId "starter" d.starters db.memberships) mem.id hex
    obtain ⟨hh1, hc1, -⟩ := apply_group_mem db.nextTeamId "starter" d.starters db.memberships
      mem.id ⟨mem, hm, rfl⟩
    refine ⟨?_, hf⟩
    rw [hcnt, hh1, hc1, (hfk mem.id).1, (hfk mem.id).2]
    simp

/-- Witness for C5: in the committed both-groups fixture, Alice ends with
exactly one membership row for the new team and its status is sub. -/
theorem C5_membership_upsert_last_status_wins_witness :
    countKey (finalize_team draftBothGroups (fun _ => .ok) db0).2.memberships
      db0.nextTeamId memA.id = 1 ∧
    findStatus (finalize_team draftBothGroups (fun _ => .ok) db0).2.memberships
      db0.nextTeamId memA.id = some "sub" :=
  (C5_membership_upsert_last_status_wins draftBothGroups (fun _ => .ok) db0 role1 cat2
    chan3 memA 2025 "Fall" 1 rfl rfl rfl rfl rfl (by decide) rfl (by decide) rfl (by decide)
    (by intro r hr; cases hr) (by intro tid pid; simp [countKey, db0])).2.2.2
    memA (by decide) ⟨memA, by decide, rfl⟩

end TeamBot
